import Mathlib

/-!
Shallow embedding of the FTX-1 memory manipulator codec (src/ftx1.rs and
src/parsers.rs). Bytes and characters are modelled as natural number code
points; Rust i16 values are modelled as Int with explicit wrap handling
where overflow matters; Rust Result of T with unit error is modelled as
Option T.
-/

namespace Ftx1

/-- Converts one byte to its decimal digit value; mirrors
`(*item as char).to_digit(10)` in src/parsers.rs (48 is the code of the
digit zero, 57 the code of the digit nine). -/
def toDigit (c : Nat) : Option Nat :=
  if 48 ≤ c ∧ c ≤ 57 then some (c - 48) else none

/-- Mirrors the accumulation loop shared by the parsers in src/parsers.rs:
each digit contributes `n * 10 ^ (w - i)` where `w` is the weight of the
leading position, and any non-digit byte aborts with an error. -/
def digitsWeighted : List Nat → Nat → Option Nat
  | [], _ => some 0
  | c :: rest, w =>
    match toDigit c with
    | none => none
    | some n =>
      match digitsWeighted rest (w - 1) with
      | none => none
      | some s => some (n * 10 ^ w + s)

/-- Embeds `buf4_to_u16` from src/parsers.rs: exactly 4 ASCII digits. -/
def buf4_to_u16 (buffer : List Nat) : Option Nat :=
  if buffer.length ≠ 4 then none else digitsWeighted buffer 3

/-- Embeds `buf9_to_u32` from src/parsers.rs: exactly 9 ASCII digits. -/
def buf9_to_u32 (buffer : List Nat) : Option Nat :=
  if buffer.length ≠ 9 then none else digitsWeighted buffer 8

/-- Embeds `buf4_to_i16` from src/parsers.rs: 5 bytes, a sign position
followed by 4 digits; only a minus byte (code 45) makes the sign negative,
every other leading byte gives a positive sign. The magnitude is at most
9999 so the 16-bit product never overflows. -/
def buf4_to_i16 (buffer : List Nat) : Option Int :=
  if buffer.length ≠ 5 then none
  else
    let sign : Int := if buffer.getD 0 0 = 45 then -1 else 1
    match digitsWeighted (buffer.drop 1) 3 with
    | none => none
    | some r => some ((r : Int) * sign)

/-- Embeds `buf5_to_i16` from src/parsers.rs: 6 bytes, a sign position
followed by 5 digits, accumulated in 32-bit width and then bounded to the
16-bit signed range. -/
def buf5_to_i16 (buffer : List Nat) : Option Int :=
  if buffer.length ≠ 6 then none
  else
    let sign : Int := if buffer.getD 0 0 = 45 then -1 else 1
    match digitsWeighted (buffer.drop 1) 4 with
    | none => none
    | some r =>
      let signed := (r : Int) * sign
      if signed < -32768 ∨ signed > 32767 then none else some signed

/-- Mathematical decimal value of a digit string, most significant first;
used as the specification side of the parser theorems. -/
def decVal (r : List Nat) : Nat :=
  r.foldl (fun a c => a * 10 + (c - 48)) 0

--------------------------------------
-- Frequency
--------------------------------------

structure FrequencyHz where
  value : Nat
deriving DecidableEq

/-- Embeds `TryFrom<u32> for FrequencyHz` (src/ftx1.rs line 30): the value
must lie in one of the two legal sub-bands. -/
def FrequencyHz.try_from_u32 (item : Nat) : Option FrequencyHz :=
  if (30000 ≤ item ∧ item < 174000000) ∨ (400000000 ≤ item ∧ item < 470000000) then
    some ⟨item⟩
  else
    none

/-- Embeds `TryFrom<&[u8]> for FrequencyHz` (src/ftx1.rs line 43). -/
def FrequencyHz.try_from_bytes (item : List Nat) : Option FrequencyHz :=
  if item.length ≠ 9 then none
  else
    match buf9_to_u32 item with
    | none => none
    | some value => FrequencyHz.try_from_u32 value

--------------------------------------
-- Clarifier offset
--------------------------------------

structure ClarifierOffsetHz where
  value : Int
deriving DecidableEq

/-- Sixteen-bit absolute value as computed by `i16::abs` in an optimized
Rust build: negating the minimal value -32768 overflows and wraps back to
-32768 (a debug build panics at that same input instead). -/
def i16Abs (v : Int) : Int :=
  if v = -32768 then -32768 else |v|

/-- Embeds `TryFrom<i16> for ClarifierOffsetHz` (src/ftx1.rs line 86):
rejects when `item.abs() > 9990`, with `abs` the 16-bit wrapping form. -/
def ClarifierOffsetHz.try_from_i16 (item : Int) : Option ClarifierOffsetHz :=
  if i16Abs item > 9990 then none else some ⟨item⟩

/-- Embeds `TryFrom<&[u8]> for ClarifierOffsetHz` (src/ftx1.rs line 98). -/
def ClarifierOffsetHz.try_from_bytes (item : List Nat) : Option ClarifierOffsetHz :=
  if item.length ≠ 5 then none
  else
    match buf4_to_i16 item with
    | none => none
    | some value => ClarifierOffsetHz.try_from_i16 value

--------------------------------------
-- RX and TX clarifier flags
--------------------------------------

inductive RxClarifierOnOff where
  | RxClarifierOff
  | RxClarifierOn
deriving DecidableEq

/-- Embeds `TryFrom<char> for RxClarifierOnOff`: 48 is the digit zero,
49 the digit one. -/
def RxClarifierOnOff.try_from : Nat → Option RxClarifierOnOff
  | 48 => some .RxClarifierOff
  | 49 => some .RxClarifierOn
  | _ => none

inductive TxClarifierOnOff where
  | TxClarifierOff
  | TxClarifierOn
deriving DecidableEq

/-- Embeds `TryFrom<char> for TxClarifierOnOff`. -/
def TxClarifierOnOff.try_from : Nat → Option TxClarifierOnOff
  | 48 => some .TxClarifierOff
  | 49 => some .TxClarifierOn
  | _ => none

--------------------------------------
-- Memory Channel
--------------------------------------

inductive PmsLowerUpper where
  | Lower
  | Upper
deriving DecidableEq

structure PmsChannel where
  slot : Nat
  lower_upper : PmsLowerUpper
deriving DecidableEq

inductive MemoryChannel where
  | VfoMtQmb
  | Mem (ch : Nat)
  | Pms (pms : PmsChannel)
  | FiveMHzBand (band : Nat)
  | EmergencyChannel
deriving DecidableEq

/-- Models `str::parse::<u8>` applied to the two-character slot string built
in the PMS arm of `MemoryChannel::try_from`: two decimal digits, or an
optional leading plus byte (code 43) followed by one digit; every two-digit
value is at most 99 so no 8-bit overflow can occur. -/
def parseU8Pair (c1 c2 : Nat) : Option Nat :=
  if (48 ≤ c1 ∧ c1 ≤ 57) ∧ (48 ≤ c2 ∧ c2 ≤ 57) then some ((c1 - 48) * 10 + (c2 - 48))
  else if c1 = 43 ∧ (48 ≤ c2 ∧ c2 ≤ 57) then some (c2 - 48)
  else none

/-- Embeds `TryFrom<&[char; 5]> for MemoryChannel` (src/ftx1.rs line 253).
The five characters are code points; casting a character to a byte in the
source truncates the code point, modelled by reduction modulo 256. Match
arms appear in source order: the all-zero literal, then leading 48 (digit
zero), then leading 80 (letter P), then leading 53 (digit five), then the
EMGCH literal (codes 69 77 71 67 72). -/
def MemoryChannel.try_from (item : List Nat) : Option MemoryChannel :=
  match item with
  | [48, 48, 48, 48, 48] => some .VfoMtQmb
  | [48, a, b, c, d] =>
    match buf4_to_u16 [a % 256, b % 256, c % 256, d % 256] with
    | none => none
    | some ch => some (.Mem ch)
  | [80, _, c, d, e] =>
    match parseU8Pair c d with
    | none => none
    | some slot =>
      match e with
      | 76 => some (.Pms ⟨slot, .Lower⟩)
      | 85 => some (.Pms ⟨slot, .Upper⟩)
      | _ => none
  | [53, a, b, c, d] =>
    match buf4_to_u16 [a % 256, b % 256, c % 256, d % 256] with
    | none => none
    | some band => some (.FiveMHzBand (band % 256))
  | [69, 77, 71, 67, 72] => some .EmergencyChannel
  | _ => none

/-- Embeds `MemoryChannel::to_chars` (src/ftx1.rs line 289). The Mem arm
formats the channel as a zero-padded 5-digit decimal (the stored value is a
u16, hence below 100000). The Pms arm formats the slot zero-padded to at
least two digits and keeps the first five characters of the result. The
FiveMHzBand arm reproduces the source exactly: it casts `band / 10` and
`band % 10` to characters directly, without adding the digit-zero offset,
so the two trailing positions carry raw numeric code points. -/
def MemoryChannel.to_chars : MemoryChannel → Option (List Nat)
  | .VfoMtQmb => some [48, 48, 48, 48, 48]
  | .Mem ch =>
    some [48 + ch / 10000 % 10, 48 + ch / 1000 % 10, 48 + ch / 100 % 10,
          48 + ch / 10 % 10, 48 + ch % 10]
  | .Pms pms =>
    let lu : Nat := match pms.lower_upper with
      | .Lower => 76
      | .Upper => 85
    let digits : List Nat :=
      if pms.slot < 100 then [48 + pms.slot / 10, 48 + pms.slot % 10]
      else [48 + pms.slot / 100, 48 + pms.slot / 10 % 10, 48 + pms.slot % 10]
    some (([80, 45] ++ digits ++ [lu]).take 5)
  | .FiveMHzBand band => some [53, 48, 48, band / 10, band % 10]
  | .EmergencyChannel => some [69, 77, 71, 67, 72]

--------------------------------------
-- Shift, SqlType, Mode, ChType
--------------------------------------

inductive Shift where
  | Simplex
  | PlusShift
  | MinusShift
deriving DecidableEq

/-- Embeds `TryFrom<char> for Shift`. -/
def Shift.try_from : Nat → Option Shift
  | 48 => some .Simplex
  | 49 => some .PlusShift
  | 50 => some .MinusShift
  | _ => none

inductive SqlType where
  | CtcssOff
  | CtcssEncDec
  | CtcssEnc
  | Dcs
  | PrFreq
  | RevTone
deriving DecidableEq

/-- Embeds `TryFrom<char> for SqlType`. -/
def SqlType.try_from : Nat → Option SqlType
  | 48 => some .CtcssOff
  | 49 => some .CtcssEncDec
  | 50 => some .CtcssEnc
  | 51 => some .Dcs
  | 52 => some .PrFreq
  | 53 => some .RevTone
  | _ => none

inductive ChType where
  | Vfo
  | MemoryChannel
  | MemoryTune
  | Qmb
  | Reserved4
  | Pms
deriving DecidableEq

/-- Embeds `TryFrom<char> for ChType`. -/
def ChType.try_from : Nat → Option ChType
  | 48 => some .Vfo
  | 49 => some .MemoryChannel
  | 50 => some .MemoryTune
  | 51 => some .Qmb
  | 52 => some .Reserved4
  | 53 => some .Pms
  | _ => none

inductive Mode where
  | Lsb
  | Usb
  | CwU
  | Fm
  | Am
  | RttyL
  | CwL
  | DataL
  | RttyU
  | DataFm
  | FmN
  | DataU
  | AmN
  | Psk
  | DataFmN
deriving DecidableEq

/-- Embeds `TryFrom<char> for Mode`: codes 49 to 57 are the digits one to
nine, codes 65 to 70 the letters A to F. -/
def Mode.try_from : Nat → Option Mode
  | 49 => some .Lsb
  | 50 => some .Usb
  | 51 => some .CwU
  | 52 => some .Fm
  | 53 => some .Am
  | 54 => some .RttyL
  | 55 => some .CwL
  | 56 => some .DataL
  | 57 => some .RttyU
  | 65 => some .DataFm
  | 66 => some .FmN
  | 67 => some .DataU
  | 68 => some .AmN
  | 69 => some .Psk
  | 70 => some .DataFmN
  | _ => none

--------------------------------------
-- Cmd
--------------------------------------

/-- Command descriptor: the two mnemonic character codes and the expected
reply parameter count (src/ftx1.rs line 516). -/
structure Cmd where
  code0 : Nat
  code1 : Nat
  read_params : Nat
deriving DecidableEq

/-- Embeds `Cmd::is_reply_ok` (src/ftx1.rs line 535): reject buffers
shorter than 3 bytes, then require both mnemonic bytes (the character codes
truncated to bytes) to occur somewhere in the buffer, the length minus 3 to
equal the expected parameter count, and the terminator byte 59 (the
semicolon) to occur somewhere in the buffer. -/
def Cmd.is_reply_ok (c : Cmd) (rx_buffer : List Nat) : Option Unit :=
  if rx_buffer.length < 3 then none
  else
    let code0 := rx_buffer.contains (c.code0 % 256)
    let code1 := rx_buffer.contains (c.code1 % 256)
    let params := rx_buffer.length - 3 == c.read_params
    let terminator := rx_buffer.contains 59
    if terminator && code0 && code1 && params then some () else none

/-- The ID command descriptor: mnemonic codes 73 68, four reply parameters
(src/ftx1.rs line 557). -/
def CMD_ID : Cmd := { code0 := 73, code1 := 68, read_params := 4 }

/-- The MR command descriptor: mnemonic codes 77 82, 27 reply parameters
(src/ftx1.rs line 621). -/
def CMD_MR : Cmd := { code0 := 77, code1 := 82, read_params := 27 }

/-- The MC command descriptor: mnemonic codes 77 67, six reply parameters
(src/ftx1.rs line 728). -/
def CMD_MC : Cmd := { code0 := 77, code1 := 67, read_params := 6 }

--------------------------------------
-- CmdMr
--------------------------------------

/-- Aggregate decoded by the MR command (src/ftx1.rs line 589). -/
structure MemoryRead where
  channel : MemoryChannel
  frequency_hz : FrequencyHz
  clarifier_offset_hz : ClarifierOffsetHz
  rx_clarifier_enabled : RxClarifierOnOff
  tx_clarifier_enabled : TxClarifierOnOff
  mode : Mode
  ch_type : ChType
  sql_type : SqlType
  shift : Shift
deriving DecidableEq

/-- Embeds `CmdMr::decode` (src/ftx1.rs line 630). The source first
validates the reply, then reads fields at fixed offsets, assigning them
over a default record in left-to-right order; bytes 26 and 27 are read
into an unused dummy. Indexing is modelled with getD, which agrees with
the source on every buffer that passes validation since validation forces
the length to 30. -/
def CmdMr.decode (buffer : List Nat) : Option MemoryRead := do
  let _ ← CMD_MR.is_reply_ok buffer
  let channel ← MemoryChannel.try_from
    [buffer.getD 2 0, buffer.getD 3 0, buffer.getD 4 0, buffer.getD 5 0, buffer.getD 6 0]
  let frequency_hz ← FrequencyHz.try_from_bytes ((buffer.drop 7).take 9)
  let clarifier_offset_hz ← ClarifierOffsetHz.try_from_bytes ((buffer.drop 16).take 5)
  let rx_clarifier_enabled ← RxClarifierOnOff.try_from (buffer.getD 21 0)
  let tx_clarifier_enabled ← TxClarifierOnOff.try_from (buffer.getD 22 0)
  let mode ← Mode.try_from (buffer.getD 23 0)
  let ch_type ← ChType.try_from (buffer.getD 24 0)
  let sql_type ← SqlType.try_from (buffer.getD 25 0)
  let _dummy := buffer.getD 26 0 ||| buffer.getD 27 0
  let shift ← Shift.try_from (buffer.getD 28 0)
  pure { channel, frequency_hz, clarifier_offset_hz, rx_clarifier_enabled,
         tx_clarifier_enabled, mode, ch_type, sql_type, shift }

--------------------------------------
-- CmdMc
--------------------------------------

inductive Side where
  | Main
  | Sub
deriving DecidableEq

/-- Embeds `TryFrom<&u8> for Side` (src/ftx1.rs line 710): the match arms
compare against the numeric values 0 and 1, not against the ASCII digit
codes 48 and 49. -/
def Side.try_from : Nat → Option Side
  | 0 => some .Main
  | 1 => some .Sub
  | _ => none

/-- Possible outcomes of `CmdMc::decode`: the source calls `unwrap` on the
two conversions, so a failed conversion is a panic, distinct from the
ordinary error returned on reply-validation failure. -/
inductive McDecodeResult where
  | panicked
  | err
  | ok (side : Side) (channel : MemoryChannel)
deriving DecidableEq

/-- Embeds `CmdMc::decode` (src/ftx1.rs line 741): validate the reply,
then unwrap the side conversion of byte 2 and the channel conversion of
bytes 3 through 7. -/
def CmdMc.decode (buffer : List Nat) : McDecodeResult :=
  match CMD_MC.is_reply_ok buffer with
  | none => .err
  | some _ =>
    match Side.try_from (buffer.getD 2 0) with
    | none => .panicked
    | some side =>
      match MemoryChannel.try_from
        [buffer.getD 3 0, buffer.getD 4 0, buffer.getD 5 0, buffer.getD 6 0,
         buffer.getD 7 0] with
      | none => .panicked
      | some channel => .ok side channel

--------------------------------------
-- Parser lemmas
--------------------------------------

/-- Folding the decimal accumulator from an arbitrary start value shifts the
start by a power of ten. -/
theorem foldl_decVal (r : List Nat) (a : Nat) :
    r.foldl (fun a c => a * 10 + (c - 48)) a = a * 10 ^ r.length + decVal r := by
  induction r generalizing a with
  | nil => simp [decVal]
  | cons c rest ih =>
    simp only [List.foldl_cons, List.length_cons, decVal, Nat.zero_mul, Nat.zero_add] at *
    rw [ih (a * 10 + (c - 48)), ih (c - 48)]
    ring

/-- On an all-digit string, the weighted accumulation loop computes the
decimal value of the string. -/
theorem digitsWeighted_digits (r : List Nat) (h : ∀ c ∈ r, 48 ≤ c ∧ c ≤ 57) :
    digitsWeighted r (r.length - 1) = some (decVal r) := by
  induction r with
  | nil => simp [digitsWeighted, decVal]
  | cons c rest ih =>
    have hc := h c (List.mem_cons_self c rest)
    have hrest : ∀ x ∈ rest, 48 ≤ x ∧ x ≤ 57 := fun x hx => h x (List.mem_cons_of_mem _ hx)
    have hdv : decVal (c :: rest) = (c - 48) * 10 ^ rest.length + decVal rest := by
      simp only [decVal, List.foldl_cons, Nat.zero_mul, Nat.zero_add]
      exact foldl_decVal rest (c - 48)
    simp only [digitsWeighted, List.length_cons, Nat.add_sub_cancel, toDigit, if_pos hc]
    rw [ih hrest, hdv]

/-- A single out-of-range byte anywhere in the string makes the weighted
accumulation loop fail, whatever the leading weight. -/
theorem digitsWeighted_non_digit (r : List Nat) (w : Nat)
    (h : ∃ c ∈ r, c < 48 ∨ 57 < c) : digitsWeighted r w = none := by
  induction r generalizing w with
  | nil => obtain ⟨c, hc, _⟩ := h; cases hc
  | cons a rest ih =>
    obtain ⟨c, hc, hnd⟩ := h
    simp only [digitsWeighted]
    rcases List.mem_cons.mp hc with heq | hmem
    · subst heq
      rw [toDigit, if_neg (by omega)]
    · cases ha : toDigit a with
      | none => rfl
      | some n => rw [ih (w - 1) ⟨c, hmem, hnd⟩]

--------------------------------------
-- Concrete buffers used by witnesses
--------------------------------------

/-- The example MR reply from the comment in `CmdMr::decode`: the byte
string MR00001007000000+000000110000 followed by the terminator. -/
def mrReplyBuffer : List Nat :=
  [77, 82, 48, 48, 48, 48, 49, 48, 48, 55, 48, 48, 48, 48, 48, 48, 43, 48,
   48, 48, 48, 48, 48, 49, 49, 48, 48, 48, 48, 59]

--------------------------------------
-- Claim theorems
--------------------------------------

/-- C1: the MemoryChannel encode/decode pair is claimed to be a mutual
inverse for every in-range value, including FiveMHzBand slots 1 to 20.
The code breaks this: to_chars on FiveMHzBand 1 emits the raw code points
0 and 1 in the two trailing positions instead of ASCII digits, the decoder
rejects that string, and conversely the valid encoding 50001 decodes to
FiveMHzBand 1 whose re-encoding is not 50001. -/
theorem c1_five_mhz_roundtrip_breaks :
    MemoryChannel.to_chars (.FiveMHzBand 1) = some [53, 48, 48, 0, 1] ∧
    MemoryChannel.try_from [53, 48, 48, 0, 1] = none ∧
    MemoryChannel.try_from [53, 48, 48, 48, 49] = some (.FiveMHzBand 1) ∧
    some [53, 48, 48, 0, 1] ≠ some [53, 48, 48, 48, 49] := by
  refine ⟨rfl, rfl, rfl, ?_⟩
  decide

/-- C2: reply validation succeeds exactly when the buffer has length at
least 3, both mnemonic bytes occur somewhere in it, its length minus 3
equals the expected parameter count, and the terminator byte 59 occurs
somewhere in it; any single violation fails. -/
theorem c2_is_reply_ok_iff (c : Cmd) (buf : List Nat)
    (h0 : c.code0 < 256) (h1 : c.code1 < 256) :
    c.is_reply_ok buf = some () ↔
      3 ≤ buf.length ∧ c.code0 ∈ buf ∧ c.code1 ∈ buf ∧
      buf.length - 3 = c.read_params ∧ 59 ∈ buf := by
  unfold Cmd.is_reply_ok
  rw [Nat.mod_eq_of_lt h0, Nat.mod_eq_of_lt h1]
  constructor
  · intro h
    split at h
    · exact absurd h (by simp)
    · rename_i hge
      dsimp only at h
      split at h
      · rename_i hcond
        simp only [Bool.and_eq_true, beq_iff_eq, List.contains, List.elem_iff] at hcond
        exact ⟨by omega, hcond.1.1.2, hcond.1.2, hcond.2, hcond.1.1.1⟩
      · exact absurd h (by simp)
  · rintro ⟨hlen, hm0, hm1, hp, ht⟩
    rw [if_neg (by omega)]
    dsimp only
    rw [if_pos]
    simp only [Bool.and_eq_true, beq_iff_eq, List.contains, List.elem_iff]
    exact ⟨⟨⟨ht, hm0⟩, hm1⟩, hp⟩

/-- C2 witness: a well-formed ID reply of seven bytes passes validation. -/
theorem c2_is_reply_ok_witness :
    CMD_ID.is_reply_ok [73, 68, 48, 56, 52, 48, 59] = some () :=
  (c2_is_reply_ok_iff CMD_ID [73, 68, 48, 56, 52, 48, 59]
    (by decide) (by decide)).mpr (by decide)

/-- C4: on a validated MC reply whose first parameter byte is the ASCII
digit zero and whose next five bytes encode Mem 1, the claim says decode
returns the Main side with that channel and cannot panic. The code instead
panics: Side conversion matches the numeric values 0 and 1, so byte 48
fails the conversion and the unwrap aborts. -/
theorem c4_cmd_mc_decode_panics :
    CMD_MC.is_reply_ok [77, 67, 48, 48, 48, 48, 48, 49, 59] = some () ∧
    MemoryChannel.try_from [48, 48, 48, 48, 49] = some (.Mem 1) ∧
    Side.try_from 48 = none ∧
    CmdMc.decode [77, 67, 48, 48, 48, 48, 48, 49, 59] = .panicked := by
  refine ⟨?_, rfl, rfl, rfl⟩
  decide

/-- C5: the claim says the clarifier constructor rejects every 16-bit value
of magnitude above 9990, including the minimal value -32768. The code
computes the 16-bit absolute value, which wraps at -32768 in an optimized
build, so the comparison against 9990 is false and the value is accepted
(a debug build panics on the same input instead of returning an error). -/
theorem c5_clarifier_i16_min_accepted :
    ClarifierOffsetHz.try_from_i16 (-32768) = some ⟨-32768⟩ ∧
    9990 < |(-32768 : Int)| := by
  refine ⟨rfl, ?_⟩
  decide

/-- C6: frequency construction from a 32-bit value succeeds, keeping the
value, exactly when it lies in one of the two legal sub-bands, and the
eight boundary inputs behave as stated. -/
theorem c6_frequency_try_from_u32_spec :
    (∀ v : Nat, v < 4294967296 →
      (FrequencyHz.try_from_u32 v = some ⟨v⟩ ↔
        (30000 ≤ v ∧ v < 174000000) ∨ (400000000 ≤ v ∧ v < 470000000))) ∧
    FrequencyHz.try_from_u32 29999 = none ∧
    FrequencyHz.try_from_u32 174000000 = none ∧
    FrequencyHz.try_from_u32 399999999 = none ∧
    FrequencyHz.try_from_u32 470000000 = none ∧
    FrequencyHz.try_from_u32 30000 = some ⟨30000⟩ ∧
    FrequencyHz.try_from_u32 173999999 = some ⟨173999999⟩ ∧
    FrequencyHz.try_from_u32 400000000 = some ⟨400000000⟩ ∧
    FrequencyHz.try_from_u32 469999999 = some ⟨469999999⟩ := by
  refine ⟨fun v hv => ?_, by decide, by decide, by decide, by decide,
          by decide, by decide, by decide, by decide⟩
  unfold FrequencyHz.try_from_u32
  split
  · rename_i h
    exact ⟨fun _ => h, fun _ => rfl⟩
  · rename_i h
    exact ⟨fun hc => Option.noConfusion hc, fun hc => absurd hc h⟩

/-- C6 witness: the lower band edge is accepted. -/
theorem c6_frequency_witness :
    FrequencyHz.try_from_u32 30000 = some ⟨30000⟩ :=
  (c6_frequency_try_from_u32_spec.1 30000 (by decide)).mpr (Or.inl (by decide))

/-- C9: any buffer that passes the MR reply validation has length exactly
30, so every index the MR decoder reads, up to index 28, is in bounds. -/
theorem c9_cmd_mr_reply_length (buf : List Nat)
    (hok : CMD_MR.is_reply_ok buf = some ()) :
    buf.length = 30 ∧ ∀ i, i ≤ 28 → i < buf.length := by
  have h : buf.length = 30 := by
    unfold CMD_MR Cmd.is_reply_ok at hok
    split at hok
    · exact absurd hok (by simp)
    · rename_i hge
      dsimp only at hok
      split at hok
      · rename_i hcond
        simp only [Bool.and_eq_true, beq_iff_eq] at hcond
        omega
      · exact absurd hok (by simp)
  exact ⟨h, fun i hi => by omega⟩

/-- C9 witness: the example MR reply buffer validates and has length 30. -/
theorem c9_cmd_mr_reply_length_witness : mrReplyBuffer.length = 30 :=
  (c9_cmd_mr_reply_length mrReplyBuffer (by decide)).1

/-- C10: the PMS arm of the channel decoder is permissive: any leading
letter P, any second character, two digit characters, and a trailing L
(code 76) or U (code 85) decode to a Pms value with the two-digit slot,
with no constraint tying the second character to a dash or the slot to
the range 1 to 50. -/
theorem c10_pms_decode_permissive (c2 d1 d2 c5 : Nat)
    (hd1 : 48 ≤ d1 ∧ d1 ≤ 57) (hd2 : 48 ≤ d2 ∧ d2 ≤ 57)
    (h5 : c5 = 76 ∨ c5 = 85) :
    MemoryChannel.try_from [80, c2, d1, d2, c5] =
      some (.Pms ⟨(d1 - 48) * 10 + (d2 - 48),
                  if c5 = 76 then .Lower else .Upper⟩) := by
  have hp : parseU8Pair d1 d2 = some ((d1 - 48) * 10 + (d2 - 48)) := by
    unfold parseU8Pair
    rw [if_pos ⟨hd1, hd2⟩]
  rcases h5 with h | h <;> subst h <;> simp [MemoryChannel.try_from, hp]

/-- C10 witness: the string PX99U, with no dash and a slot outside 1 to 50,
decodes to the upper half of PMS slot 99. -/
theorem c10_pms_decode_witness :
    MemoryChannel.try_from [80, 88, 57, 57, 85] =
      some (.Pms ⟨99, .Upper⟩) :=
  (c10_pms_decode_permissive 88 57 57 85 (by decide) (by decide)
    (Or.inr rfl)).trans (by decide)

/-- C7: on a six-byte input whose last five bytes are digits with decimal
value d, the signed five-digit parser returns d, negated when the leading
byte is the minus sign (code 45), except that results outside the 16-bit
signed range are rejected; inputs of any other length, or with a non-digit
among the last five bytes, are rejected. -/
theorem c7_buf5_to_i16_spec :
    (∀ (s : Nat) (r : List Nat), r.length = 5 → (∀ c ∈ r, 48 ≤ c ∧ c ≤ 57) →
      buf5_to_i16 (s :: r) =
        (if (if s = 45 then -(decVal r : Int) else (decVal r : Int)) < -32768 ∨
            (if s = 45 then -(decVal r : Int) else (decVal r : Int)) > 32767
         then none
         else some (if s = 45 then -(decVal r : Int) else (decVal r : Int)))) ∧
    (∀ buffer : List Nat, buffer.length ≠ 6 → buf5_to_i16 buffer = none) ∧
    (∀ (s : Nat) (r : List Nat), r.length = 5 →
      (∃ c ∈ r, c < 48 ∨ 57 < c) → buf5_to_i16 (s :: r) = none) := by
  refine ⟨fun s r hlen hdig => ?_, fun buffer h => ?_, fun s r hlen hbad => ?_⟩
  · have h4 : digitsWeighted r 4 = some (decVal r) := by
      have := digitsWeighted_digits r hdig
      rwa [hlen] at this
    have hsgn : (decVal r : Int) * (if s = 45 then -1 else 1) =
        if s = 45 then -(decVal r : Int) else (decVal r : Int) := by
      by_cases hs : s = 45 <;> simp [hs]
    unfold buf5_to_i16
    rw [if_neg (by simp [hlen])]
    dsimp only
    rw [show (s :: r).drop 1 = r from rfl, h4,
        show (s :: r).getD 0 0 = s from rfl]
    dsimp only
    rw [hsgn]
  · unfold buf5_to_i16
    rw [if_pos h]
  · unfold buf5_to_i16
    rw [if_neg (by simp [hlen])]
    dsimp only
    rw [show (s :: r).drop 1 = r from rfl, digitsWeighted_non_digit r 4 hbad]

/-- C7 witness: the input plus zero zero zero one five parses to 15. -/
theorem c7_buf5_to_i16_witness :
    buf5_to_i16 [43, 48, 48, 48, 49, 53] = some 15 :=
  (c7_buf5_to_i16_spec.1 43 [48, 48, 48, 49, 53]
    (by decide) (by decide)).trans (by decide)

/-- C8: on a five-byte input whose last four bytes are digits with decimal
value d, the signed four-digit parser returns d, negated exactly when the
leading byte is the minus sign (code 45); every other leading byte, not
only the plus sign, yields the positive value, so no leading byte is ever
rejected as an invalid sign. -/
theorem c8_buf4_to_i16_sign_permissive (s : Nat) (r : List Nat)
    (hlen : r.length = 4) (hdig : ∀ c ∈ r, 48 ≤ c ∧ c ≤ 57) :
    buf4_to_i16 (s :: r) =
      some (if s = 45 then -(decVal r : Int) else (decVal r : Int)) := by
  have h3 : digitsWeighted r 3 = some (decVal r) := by
    have := digitsWeighted_digits r hdig
    rwa [hlen] at this
  have hsgn : (decVal r : Int) * (if s = 45 then -1 else 1) =
      if s = 45 then -(decVal r : Int) else (decVal r : Int) := by
    by_cases hs : s = 45 <;> simp [hs]
  unfold buf4_to_i16
  rw [if_neg (by simp [hlen])]
  dsimp only
  rw [show (s :: r).drop 1 = r from rfl, h3,
      show (s :: r).getD 0 0 = s from rfl]
  dsimp only
  rw [hsgn]

/-- C8 witness: a question mark (code 63) in the sign position is treated
as positive, so the input question-mark one two three four parses to
1234. -/
theorem c8_buf4_to_i16_witness :
    buf4_to_i16 [63, 49, 50, 51, 52] = some 1234 :=
  (c8_buf4_to_i16_sign_permissive 63 [49, 50, 51, 52]
    (by decide) (by decide)).trans (by decide)

/-- C3: on a buffer that passes MR reply validation (hence of length 30),
decode succeeds with a given aggregate exactly when each field decoder,
applied at its fixed offset, yields the corresponding field: channel from
bytes 2 to 6, frequency from bytes 7 to 15, clarifier offset from bytes 16
to 20, the two clarifier flags from bytes 21 and 22, mode from byte 23,
channel type from byte 24, squelch type from byte 25, and shift from byte
28, with bytes 26 and 27 not constraining the result; the failure of any
single field decoder therefore makes decode fail. -/
theorem c3_cmd_mr_decode_fields (buffer : List Nat) (mr : MemoryRead)
    (hok : CMD_MR.is_reply_ok buffer = some ()) :
    CmdMr.decode buffer = some mr ↔
      (MemoryChannel.try_from
        [buffer.getD 2 0, buffer.getD 3 0, buffer.getD 4 0,
         buffer.getD 5 0, buffer.getD 6 0] = some mr.channel ∧
       FrequencyHz.try_from_bytes ((buffer.drop 7).take 9) = some mr.frequency_hz ∧
       ClarifierOffsetHz.try_from_bytes ((buffer.drop 16).take 5) =
         some mr.clarifier_offset_hz ∧
       RxClarifierOnOff.try_from (buffer.getD 21 0) = some mr.rx_clarifier_enabled ∧
       TxClarifierOnOff.try_from (buffer.getD 22 0) = some mr.tx_clarifier_enabled ∧
       Mode.try_from (buffer.getD 23 0) = some mr.mode ∧
       ChType.try_from (buffer.getD 24 0) = some mr.ch_type ∧
       SqlType.try_from (buffer.getD 25 0) = some mr.sql_type ∧
       Shift.try_from (buffer.getD 28 0) = some mr.shift) := by
  constructor
  · intro h
    unfold CmdMr.decode at h
    rw [hok] at h
    simp only [Option.bind_eq_bind, Option.some_bind, Option.bind_eq_some,
               Option.pure_def, Option.some.injEq] at h
    obtain ⟨ch, h1, f, h2, cl, h3, rx, h4, tx, h5, m, h6, ct, h7, sq, h8, sh, h9, heq⟩ := h
    subst heq
    exact ⟨h1, h2, h3, h4, h5, h6, h7, h8, h9⟩
  · rintro ⟨h1, h2, h3, h4, h5, h6, h7, h8, h9⟩
    unfold CmdMr.decode
    rw [hok]
    simp only [Option.bind_eq_bind, Option.some_bind, h1, h2, h3, h4, h5, h6,
               h7, h8, h9, Option.pure_def]

/-- C3 witness: the example MR reply decodes to memory channel 1 at
7 MHz, zero clarifier offset, both clarifiers off, LSB mode, memory
channel type, tone off, simplex shift. -/
theorem c3_cmd_mr_decode_witness :
    CmdMr.decode mrReplyBuffer =
      some { channel := .Mem 1, frequency_hz := ⟨7000000⟩,
             clarifier_offset_hz := ⟨0⟩,
             rx_clarifier_enabled := .RxClarifierOff,
             tx_clarifier_enabled := .TxClarifierOff,
             mode := .Lsb, ch_type := .MemoryChannel,
             sql_type := .CtcssOff, shift := .Simplex } :=
  (c3_cmd_mr_decode_fields mrReplyBuffer _ (by decide)).mpr (by decide)

end Ftx1
